import Mathlib

set_option maxRecDepth 10000

/-!
Verification of the StreamDock backend (transcode job pipeline and
range-request streaming engine).  The Python sources under `backend/` are
shallowly embedded: strings are `List Char`, byte files are `List Nat`,
machine integers are `Int`/`Nat`, database rows are Lean structures, and
the external world (probe results, process exit codes, file existence) is
passed in explicitly.
-/

namespace StreamDock

/-- Convert a Lean string literal to the `List Char` representation used
throughout the embedding. -/
def chars (s : String) : List Char := s.toList

/-- The decimal digit character for `n < 10` (Python's rendering of a digit). -/
def decDigit (n : Nat) : Char := Char.ofNat (48 + n)

/-- Fuel-driven decimal rendering (structural recursion so that the kernel
can evaluate it); the fuel is always sufficient when it exceeds `n`. -/
def natToDecimalAux : Nat → Nat → List Char
  | 0, _ => []
  | fuel + 1, n =>
    if n < 10 then [decDigit n]
    else natToDecimalAux fuel (n / 10) ++ [decDigit (n % 10)]

/-- Decimal rendering of a natural number, as Python's `str`/f-string
formatting produces it. -/
def natToDecimal (n : Nat) : List Char := natToDecimalAux (n + 1) n

theorem natToDecimalAux_fuel :
    ∀ f1 f2 n : Nat, n < f1 → n < f2 →
      natToDecimalAux f1 n = natToDecimalAux f2 n := by
  intro f1
  induction f1 with
  | zero =>
    intro f2 n h1 h2
    omega
  | succ f1 ih =>
    intro f2 n h1 h2
    match f2, h2 with
    | f2 + 1, h2 =>
      show (if n < 10 then _ else _) = (if n < 10 then _ else _)
      split
      · rfl
      · next h =>
        have hd : n / 10 < n := Nat.div_lt_self (by omega) (by omega)
        rw [ih f2 (n / 10) (by omega) (by omega)]

theorem natToDecimal_eq (n : Nat) :
    natToDecimal n =
      if n < 10 then [decDigit n]
      else natToDecimal (n / 10) ++ [decDigit (n % 10)] := by
  show (if n < 10 then _ else _) = _
  split
  · rfl
  · next h =>
    rw [natToDecimal, natToDecimalAux_fuel n (n / 10 + 1) (n / 10) (by omega) (by omega)]

/-- Decimal rendering of an integer (Python renders negatives with a sign). -/
def intToDecimal (i : Int) : List Char :=
  if i < 0 then '-' :: natToDecimal (-i).toNat else natToDecimal i.toNat

/-- Numeric value of a list of decimal digit characters, as Python's `int`
constructor computes it on a digit string. -/
def digitsVal (ds : List Char) : Nat :=
  ds.foldl (fun a c => a * 10 + (c.toNat - 48)) 0

theorem decDigit_isDigit {n : Nat} (h : n < 10) : (decDigit n).isDigit = true := by
  interval_cases n <;> decide

theorem decDigit_toNat {n : Nat} (h : n < 10) : (decDigit n).toNat = 48 + n := by
  interval_cases n <;> decide

theorem natToDecimal_ne_nil (n : Nat) : natToDecimal n ≠ [] := by
  rw [natToDecimal_eq]
  split <;> simp

theorem natToDecimal_all_digits (n : Nat) :
    ∀ c ∈ natToDecimal n, c.isDigit = true := by
  induction n using Nat.strong_induction_on with
  | _ n ih =>
    intro c hc
    rw [natToDecimal_eq] at hc
    split at hc
    · next h =>
      simp at hc
      subst hc
      exact decDigit_isDigit h
    · next h =>
      simp at hc
      rcases hc with hc | hc
      · exact ih (n / 10) (Nat.div_lt_self (by omega) (by omega)) c hc
      · subst hc
        exact decDigit_isDigit (Nat.mod_lt _ (by omega))

theorem digitsVal_append_digit (ds : List Char) (c : Char) :
    digitsVal (ds ++ [c]) = digitsVal ds * 10 + (c.toNat - 48) := by
  simp [digitsVal, List.foldl_append]

theorem digitsVal_natToDecimal (n : Nat) : digitsVal (natToDecimal n) = n := by
  induction n using Nat.strong_induction_on with
  | _ n ih =>
    rw [natToDecimal_eq]
    split
    · next h =>
      simp [digitsVal, decDigit_toNat h]
    · next h =>
      rw [digitsVal_append_digit,
        ih (n / 10) (Nat.div_lt_self (by omega) (by omega)),
        decDigit_toNat (Nat.mod_lt _ (by omega))]
      omega

theorem takeWhile_append_of_all {p : Char → Bool} {ds l : List Char}
    (h : ∀ c ∈ ds, p c = true) :
    (ds ++ l).takeWhile p = ds ++ l.takeWhile p := by
  induction ds with
  | nil => simp
  | cons d ds ih =>
    rw [List.cons_append, List.takeWhile_cons_of_pos (h d (by simp)),
      ih (fun c hc => h c (by simp [hc])), List.cons_append]

theorem takeWhile_of_all {p : Char → Bool} {ds : List Char}
    (h : ∀ c ∈ ds, p c = true) : ds.takeWhile p = ds := by
  induction ds with
  | nil => rfl
  | cons d ds ih =>
    rw [List.takeWhile_cons_of_pos (h d (by simp)),
      ih (fun c hc => h c (by simp [hc]))]

theorem dropWhile_append_of_all {p : Char → Bool} {ds l : List Char}
    (h : ∀ c ∈ ds, p c = true) :
    (ds ++ l).dropWhile p = l.dropWhile p := by
  induction ds with
  | nil => simp
  | cons d ds ih =>
    rw [List.cons_append, List.dropWhile_cons_of_pos (h d (by simp))]
    exact ih (fun c hc => h c (by simp [hc]))

/-!
## Streaming engine (`backend/streamer.py`)

`parse_range_header` embeds the Python function of the same name.  The
regex `bytes=(\d*)-(\d*)` is applied with `re.match`, i.e. anchored at the
start of the header and matching a prefix; a greedy `\d*` followed by a
literal is equivalent to taking the maximal digit run and then requiring
the literal, since shorter digit runs are followed by another digit.
-/

/-- The two digit groups of a `re.match` of `bytes=(\d*)-(\d*)` against a
prefix of `s`, or `none` when the regex does not match. -/
def matchRangeGroups (s : List Char) : Option (List Char × List Char) :=
  match s with
  | 'b' :: 'y' :: 't' :: 'e' :: 's' :: '=' :: rest =>
    let d1 := rest.takeWhile Char.isDigit
    match rest.dropWhile Char.isDigit with
    | '-' :: r2 => some (d1, r2.takeWhile Char.isDigit)
    | _ => none
  | _ => none

/-- `parse_range_header(range_header, file_size)`: returns the
`(start, end)` byte positions.  A falsy (empty) header or a regex miss
yields the full range `(0, file_size - 1)`; a missing start group defaults
to `0`, a missing end group to `file_size - 1`; then
`start = max(0, start)` and `end = min(end, file_size - 1)`. -/
def parse_range_header (range_header : List Char) (file_size : Int) : Int × Int :=
  if range_header = [] then (0, file_size - 1)
  else
    match matchRangeGroups range_header with
    | none => (0, file_size - 1)
    | some (d1, d2) =>
      let rStart : Int := if d1 = [] then 0 else (digitsVal d1 : Int)
      let rEnd : Int := if d2 = [] then file_size - 1 else (digitsVal d2 : Int)
      (max 0 rStart, min rEnd (file_size - 1))

/-- The HTTP response produced by the streamer: status code, the
`Content-Range` header when present, the `Content-Length` header value,
and the streamed body bytes. -/
structure StreamResponse where
  status : Nat
  contentRange : Option (List Char)
  contentLength : Int
  body : List Nat
  deriving Repr, DecidableEq

/-- The f-string `f"bytes {start}-{end}/{file_size}"` of
`Streamer._stream_with_range`. -/
def contentRangeValue (rStart rEnd size : Int) : List Char :=
  chars "bytes " ++ intToDecimal rStart ++ '-' :: intToDecimal rEnd
    ++ '/' :: intToDecimal size

/-- `Streamer._stream_full`: a 200 response carrying the whole file, with
`Content-Length` equal to the file size. -/
def streamFull (file : List Nat) : StreamResponse :=
  { status := 200
    contentRange := none
    contentLength := (file.length : Int)
    body := file }

/-- `Streamer._stream_with_range`: parses the header, then emits a 206
response whose generator seeks to `start` and reads exactly
`content_length = end - start + 1` bytes (stopping early at end of
file). -/
def streamWithRange (file : List Nat) (range_header : List Char) : StreamResponse :=
  let size : Int := (file.length : Int)
  let se := parse_range_header range_header size
  let contentLength : Int := se.2 - se.1 + 1
  { status := 206
    contentRange := some (contentRangeValue se.1 se.2 size)
    contentLength := contentLength
    body := (file.drop se.1.toNat).take contentLength.toNat }

/-- `Streamer.stream_file`: dispatches on the request's `range` header;
Python's truthiness check sends both an absent header and an empty header
string down the full-file path. -/
def stream_file (file : List Nat) (range_header : Option (List Char)) : StreamResponse :=
  match range_header with
  | some h => if h = [] then streamFull file else streamWithRange file h
  | none => streamFull file

/-- The bytes of `file` from position `rStart` to `rEnd` inclusive — the
spec's description of the partial-content body, written independently of
the generator's drop/take order. -/
def sliceInclusive (file : List Nat) (rStart rEnd : Int) : List Nat :=
  (file.take (rEnd + 1).toNat).drop rStart.toNat

/-- A syntactically well-formed `bytes=<start>-<end>` header built from two
digit groups. -/
def mkRangeHeader (d1 d2 : List Char) : List Char :=
  'b' :: 'y' :: 't' :: 'e' :: 's' :: '=' :: (d1 ++ '-' :: d2)

theorem parse_range_header_fst_nonneg (hdr : List Char) (n : Int) :
    0 ≤ (parse_range_header hdr n).1 := by
  unfold parse_range_header
  split
  · simp
  · split
    · simp
    · exact le_max_left 0 _

theorem parse_range_header_snd_bounds (hdr : List Char) (n : Int) (hn : 0 ≤ n) :
    -1 ≤ (parse_range_header hdr n).2 ∧ (parse_range_header hdr n).2 ≤ n - 1 := by
  unfold parse_range_header
  split
  · exact ⟨by simp; omega, by simp⟩
  · split
    · exact ⟨by simp; omega, by simp⟩
    · refine ⟨le_min ?_ (by omega), min_le_right _ _⟩
      split
      · omega
      · exact le_trans (by omega) (Int.natCast_nonneg _)

theorem matchRangeGroups_mk (d1 d2 : List Char)
    (hd1 : ∀ c ∈ d1, c.isDigit = true) (hd2 : ∀ c ∈ d2, c.isDigit = true) :
    matchRangeGroups (mkRangeHeader d1 d2) = some (d1, d2) := by
  show (let ds := (d1 ++ '-' :: d2).takeWhile Char.isDigit
    match (d1 ++ '-' :: d2).dropWhile Char.isDigit with
    | '-' :: r2 => some (ds, r2.takeWhile Char.isDigit)
    | _ => none) = some (d1, d2)
  rw [takeWhile_append_of_all hd1, dropWhile_append_of_all hd1,
    List.takeWhile_cons_of_neg (by decide), List.dropWhile_cons_of_neg (by decide)]
  simp [takeWhile_of_all hd2]

/-- Claim C3 as written is refuted here: on a 1000-byte file the header
`bytes=2000-` yields a start of 2000, which is not clamped into
`[0, 999]`. -/
theorem c3_start_not_clamped_counterexample :
    parse_range_header (chars "bytes=2000-") 1000 = (2000, 999) ∧
    ¬(parse_range_header (chars "bytes=2000-") 1000).1 ≤ 1000 - 1 := by
  decide

/-- Claim C3 (amended): for every well-formed `bytes=<start>-<end>` header
and file size `N ≥ 1`, a missing start defaults to 0 and a missing end to
`N - 1`; the returned start is clamped from below to 0 (it is not clamped
above), and the returned end is clamped into `[0, N - 1]`; in particular
`bytes=900-2000` on a 1000-byte file yields end 999. -/
theorem c3_parse_defaults_and_clamps (d1 d2 : List Char) (n : Int)
    (hd1 : ∀ c ∈ d1, c.isDigit = true) (hd2 : ∀ c ∈ d2, c.isDigit = true)
    (hn : 1 ≤ n) :
    parse_range_header (mkRangeHeader d1 d2) n =
      ((if d1 = [] then 0 else (digitsVal d1 : Int)),
        min (if d2 = [] then n - 1 else (digitsVal d2 : Int)) (n - 1)) ∧
    0 ≤ (parse_range_header (mkRangeHeader d1 d2) n).1 ∧
    0 ≤ (parse_range_header (mkRangeHeader d1 d2) n).2 ∧
    (parse_range_header (mkRangeHeader d1 d2) n).2 ≤ n - 1 ∧
    parse_range_header (chars "bytes=900-2000") 1000 = (900, 999) := by
  have hm := matchRangeGroups_mk d1 d2 hd1 hd2
  have hmain : parse_range_header (mkRangeHeader d1 d2) n =
      ((if d1 = [] then 0 else (digitsVal d1 : Int)),
        min (if d2 = [] then n - 1 else (digitsVal d2 : Int)) (n - 1)) := by
    rw [parse_range_header, if_neg (by simp [mkRangeHeader]), hm]
    dsimp only
    congr 1
    exact max_eq_right (by split <;> simp)
  refine ⟨hmain, ?_, ?_, ?_, by decide⟩
  · rw [hmain]
    split <;> simp
  · rw [hmain]
    refine le_min ?_ (by omega)
    split
    · omega
    · simp
  · rw [hmain]
    exact min_le_right _ _

/-- Witness for the amended C3 at the concrete header `bytes=900-2000`
and `N = 1000`. -/
theorem c3_parse_defaults_and_clamps_witness :
    parse_range_header (mkRangeHeader (chars "900") (chars "2000")) 1000 = (900, 999) :=
  ((c3_parse_defaults_and_clamps (chars "900") (chars "2000") 1000
    (by decide) (by decide) (by decide)).1).trans (by decide)

/-- Claim C2: for every file and every nonempty `Range` header, the ranged
response has status 206, `Content-Range` header `bytes start-end/size`,
`Content-Length = end - start + 1`, and a body that is exactly the bytes
from `start` to `end` inclusive; and concretely a 1000-byte file with
`Range: bytes=200-499` yields 206, `bytes 200-499/1000`, length 300, and
exactly those 300 bytes. -/
theorem c2_range_response (file : List Nat) (hdr : List Char) (hne : hdr ≠ []) :
    (stream_file file (some hdr)).status = 206 ∧
    (stream_file file (some hdr)).contentRange =
      some (contentRangeValue (parse_range_header hdr (file.length : Int)).1
        (parse_range_header hdr (file.length : Int)).2 (file.length : Int)) ∧
    (stream_file file (some hdr)).contentLength =
      (parse_range_header hdr (file.length : Int)).2
        - (parse_range_header hdr (file.length : Int)).1 + 1 ∧
    (stream_file file (some hdr)).body =
      sliceInclusive file (parse_range_header hdr (file.length : Int)).1
        (parse_range_header hdr (file.length : Int)).2 ∧
    (stream_file (List.range 1000) (some (chars "bytes=200-499"))).status = 206 ∧
    (stream_file (List.range 1000) (some (chars "bytes=200-499"))).contentRange =
      some (chars "bytes 200-499/1000") ∧
    (stream_file (List.range 1000) (some (chars "bytes=200-499"))).contentLength = 300 ∧
    (stream_file (List.range 1000) (some (chars "bytes=200-499"))).body =
      sliceInclusive (List.range 1000) 200 499 ∧
    ((stream_file (List.range 1000) (some (chars "bytes=200-499"))).body).length = 300 := by
  have hs := parse_range_header_fst_nonneg hdr (file.length : Int)
  have he := parse_range_header_snd_bounds hdr (file.length : Int) (by positivity)
  rw [stream_file, if_neg hne]
  refine ⟨rfl, rfl, rfl, ?_, by decide, by decide, by decide, by decide, by decide⟩
  show (file.drop _).take _ = _
  rw [sliceInclusive, List.drop_take]
  congr 1
  omega

/-- Witness for C2 at a concrete 3-byte file and header `bytes=1-2`. -/
theorem c2_range_response_witness :
    (stream_file [7, 8, 9] (some (chars "bytes=1-2"))).status = 206 :=
  (c2_range_response [7, 8, 9] (chars "bytes=1-2") (by decide)).1

/-- Claim C8: a malformed `Range` header (one the regex does not match) is
treated exactly like no range — the parser returns the full range
`(0, size - 1)` and the response carries the whole file with
`Content-Length` equal to the file size, not an error — and a request with
no `Range` header at all yields a 200 response with `Content-Length` equal
to the file size and the full body. -/
theorem c8_malformed_or_absent_header (file : List Nat) (hdr : List Char)
    (hmal : matchRangeGroups hdr = none) :
    parse_range_header hdr (file.length : Int) = (0, (file.length : Int) - 1) ∧
    (stream_file file (some hdr)).body = file ∧
    (stream_file file (some hdr)).contentLength = (file.length : Int) ∧
    ((stream_file file (some hdr)).status = 200 ∨
      (stream_file file (some hdr)).status = 206) ∧
    (stream_file file none).status = 200 ∧
    (stream_file file none).contentLength = (file.length : Int) ∧
    (stream_file file none).body = file := by
  have hp : parse_range_header hdr (file.length : Int) =
      (0, (file.length : Int) - 1) := by
    unfold parse_range_header
    split
    · rfl
    · rw [hmal]
  refine ⟨hp, ?_, ?_, ?_, rfl, rfl, rfl⟩
  all_goals rw [stream_file]
  all_goals by_cases hne : hdr = []
  · rw [if_pos hne]
    rfl
  · rw [if_neg hne]
    show (file.drop _).take _ = _
    rw [hp]
    simp
  · rw [if_pos hne]
    rfl
  · rw [if_neg hne]
    show (_ : Int) - _ + 1 = _
    rw [hp]
    ring
  · rw [if_pos hne]
    exact Or.inl rfl
  · rw [if_neg hne]
    exact Or.inr rfl

/-- Witness for C8 at the concrete malformed header `garbage` on a 3-byte
file. -/
theorem c8_malformed_or_absent_header_witness :
    (stream_file [1, 2, 3] (some (chars "garbage"))).body = [1, 2, 3] :=
  (c8_malformed_or_absent_header [1, 2, 3] (chars "garbage") (by decide)).2.1

/-!
## Job model (`backend/models.py`) and worker (`backend/job_worker.py`)
-/

/-- `TranscodeStatus` of `models.py`. -/
inductive TStatus where
  | pending
  | processing
  | complete
  | failed
  deriving Repr, DecidableEq

/-- A `TranscodeJob` row.  `createdAt` is the `created_at` timestamp in
epoch seconds. -/
structure Job where
  id : Nat
  mediaId : Option Nat
  episodeId : Option Nat
  sourcePath : List Char
  outputPath : Option (List Char)
  status : TStatus
  progress : Int
  errorMessage : Option (List Char)
  createdAt : Int
  deriving Repr, DecidableEq

/-- A match of the regex `Retry (\d+)/` anchored at the head of `s`:
the literal `Retry `, then a maximal nonempty digit run, then `/`. -/
def retryMarkAt (s : List Char) : Option Nat :=
  match s with
  | 'R' :: 'e' :: 't' :: 'r' :: 'y' :: ' ' :: rest =>
    let ds := rest.takeWhile Char.isDigit
    if ds = [] then none
    else
      match rest.dropWhile Char.isDigit with
      | '/' :: _ => some (digitsVal ds)
      | _ => none
  | _ => none

/-- `re.search(r"Retry (\d+)/", s)`: the first position at which the
pattern matches, scanning left to right. -/
def searchRetryMark : List Char → Option Nat
  | [] => none
  | c :: cs =>
    match retryMarkAt (c :: cs) with
    | some k => some k
    | none => searchRetryMark cs

/-- `JobWorker._get_retry_count`: 0 when `error_message` is falsy or the
pattern does not occur, otherwise the captured number. -/
def get_retry_count (errorMessage : Option (List Char)) : Nat :=
  match errorMessage with
  | none => 0
  | some m => (searchRetryMark m).getD 0

/-- The f-string `f"Retry {k}/{maxRetries}: {errMsg}"`. -/
def mkRetryMessage (k maxRetries : Nat) (errMsg : List Char) : List Char :=
  'R' :: 'e' :: 't' :: 'r' :: 'y' :: ' ' ::
    (natToDecimal k ++ '/' :: (natToDecimal maxRetries ++ ':' :: ' ' :: errMsg))

/-- The `except` branch of `JobWorker._process_job`: parse the attempt
count from the job's current `error_message`; below `maxRetries` revert to
Pending with the incremented count encoded in the message, otherwise mark
Failed with a terminal message.  (`_update_job_status` touches only
`status` and `error_message` here.) -/
def handleFailure (maxRetries : Nat) (job : Job) (errMsg : List Char) : Job :=
  let rc := get_retry_count job.errorMessage
  if rc < maxRetries then
    { job with
        status := TStatus.pending
        errorMessage := some (mkRetryMessage (rc + 1) maxRetries errMsg) }
  else
    { job with
        status := TStatus.failed
        errorMessage := some (chars "Max retries exceeded: " ++ errMsg) }

/-- The job after `n` consecutive failed attempts starting from a fresh
Pending job. -/
def afterFailures (maxRetries : Nat) (job : Job) (errMsg : List Char) : Nat → Job
  | 0 => job
  | n + 1 => handleFailure maxRetries (afterFailures maxRetries job errMsg n) errMsg

/-- `JobWorker._process_pending_jobs`'s database query, embedded
relationally: SQL `ORDER BY created_at` fixes only the key order, so a
result is any `LIMIT`-prefix of some permutation of the Pending rows that
is sorted by `created_at`; ties are returned in an order the query does
not constrain. -/
def isQueryResult (limit : Nat) (table r : List Job) : Prop :=
  ∃ p : List Job,
    (table.filter (fun j => j.status == TStatus.pending)).Perm p ∧
    List.Sorted (fun a b => a.createdAt ≤ b.createdAt) p ∧
    r = p.take limit

theorem retryMark_round_trip (k : Nat) (tail : List Char) :
    searchRetryMark ('R' :: 'e' :: 't' :: 'r' :: 'y' :: ' ' ::
      (natToDecimal k ++ '/' :: tail)) = some k := by
  show (match retryMarkAt _ with
    | some k => some k
    | none => searchRetryMark _) = some k
  have hmark : retryMarkAt ('R' :: 'e' :: 't' :: 'r' :: 'y' :: ' ' ::
      (natToDecimal k ++ '/' :: tail)) = some k := by
    show (let ds := (natToDecimal k ++ '/' :: tail).takeWhile Char.isDigit
      if ds = [] then none
      else
        match (natToDecimal k ++ '/' :: tail).dropWhile Char.isDigit with
        | '/' :: _ => some (digitsVal ds)
        | _ => none) = some k
    rw [takeWhile_append_of_all (natToDecimal_all_digits k),
      dropWhile_append_of_all (natToDecimal_all_digits k),
      List.takeWhile_cons_of_neg (by decide), List.dropWhile_cons_of_neg (by decide)]
    simp [natToDecimal_ne_nil k, digitsVal_natToDecimal k]
  rw [hmark]

theorem get_retry_count_mkRetryMessage (k maxRetries : Nat) (errMsg : List Char) :
    get_retry_count (some (mkRetryMessage k maxRetries errMsg)) = k := by
  rw [get_retry_count, mkRetryMessage, retryMark_round_trip]
  rfl

theorem afterFailures_count (maxRetries : Nat) (job : Job) (errMsg : List Char)
    (hfresh : job.errorMessage = none) :
    ∀ n, n ≤ maxRetries →
      get_retry_count (afterFailures maxRetries job errMsg n).errorMessage = n := by
  intro n
  induction n with
  | zero =>
    intro _
    rw [afterFailures, hfresh]
    rfl
  | succ n ih =>
    intro hle
    have hcount := ih (by omega)
    rw [afterFailures, handleFailure, hcount, if_pos (by omega),
      get_retry_count_mkRetryMessage]

theorem afterFailures_exhausted (maxRetries : Nat) (job : Job) (errMsg : List Char)
    (hfresh : job.errorMessage = none) :
    (afterFailures maxRetries job errMsg (maxRetries + 1)).status = TStatus.failed := by
  rw [afterFailures, handleFailure,
    afterFailures_count maxRetries job errMsg hfresh maxRetries (le_refl _),
    if_neg (by omega)]

theorem queryResult_all_pending {limit : Nat} {table r : List Job}
    (h : isQueryResult limit table r) : ∀ j ∈ r, j.status = TStatus.pending := by
  obtain ⟨p, hperm, _, hr⟩ := h
  intro j hj
  rw [hr] at hj
  have hjp : j ∈ p := List.take_subset limit p hj
  have hjf : j ∈ table.filter (fun j => j.status == TStatus.pending) :=
    hperm.mem_iff.mpr hjp
  have := List.of_mem_filter hjf
  simpa using this

/-- Claim C1: the attempt count is parsed out of `error_message` (0 when
the message is absent or carries no `Retry k/` marker); a failure with
count below `maxRetries` reverts the job to Pending with the incremented
count encoded in the new message, a failure at or past `maxRetries`
marks the job Failed; a fresh job that fails every attempt ends Failed
after `maxRetries + 1` failures, and a Failed job can never appear in a
poll-loop selection (which contains only Pending jobs), so it is never
automatically re-queued. -/
theorem c1_retry_bookkeeping (maxRetries : Nat) (job : Job) (errMsg : List Char) :
    get_retry_count none = 0 ∧
    (∀ m, searchRetryMark m = none → get_retry_count (some m) = 0) ∧
    (get_retry_count job.errorMessage < maxRetries →
      (handleFailure maxRetries job errMsg).status = TStatus.pending ∧
      get_retry_count (handleFailure maxRetries job errMsg).errorMessage =
        get_retry_count job.errorMessage + 1) ∧
    (maxRetries ≤ get_retry_count job.errorMessage →
      (handleFailure maxRetries job errMsg).status = TStatus.failed) ∧
    (job.errorMessage = none →
      (afterFailures maxRetries job errMsg (maxRetries + 1)).status = TStatus.failed) ∧
    (∀ limit table r, isQueryResult limit table r →
      ∀ j ∈ r, j.status = TStatus.pending) := by
  refine ⟨rfl, ?_, ?_, ?_, afterFailures_exhausted maxRetries job errMsg,
    fun limit table r h => queryResult_all_pending h⟩
  · intro m hm
    rw [get_retry_count, hm]
    rfl
  · intro hlt
    rw [handleFailure, if_pos hlt]
    exact ⟨rfl, get_retry_count_mkRetryMessage _ _ _⟩
  · intro hge
    rw [handleFailure, if_neg (by omega)]

/-- A concrete freshly enqueued job used by witnesses. -/
def sampleFresh : Job :=
  { id := 1
    mediaId := none
    episodeId := none
    sourcePath := chars "movie.mkv"
    outputPath := none
    status := TStatus.pending
    progress := 0
    errorMessage := none
    createdAt := 0 }

/-- Witness for C1: with `maxRetries = 3` a fresh job goes back to Pending
on its first failure and is Failed after 4 straight failures. -/
theorem c1_retry_bookkeeping_witness :
    (handleFailure 3 sampleFresh (chars "boom")).status = TStatus.pending ∧
    (afterFailures 3 sampleFresh (chars "boom") 4).status = TStatus.failed :=
  ⟨((c1_retry_bookkeeping 3 sampleFresh (chars "boom")).2.2.1 (by decide)).1,
    (c1_retry_bookkeeping 3 sampleFresh (chars "boom")).2.2.2.2.1 rfl⟩

/-- Two Pending jobs sharing the same `created_at`, with ids 1 and 2. -/
def jobA : Job := { sampleFresh with id := 1, createdAt := 5 }

/-- See `jobA`. -/
def jobB : Job := { sampleFresh with id := 2, createdAt := 5 }

/-- Claim C6 as written is refuted here: the query orders only by
`created_at`, so a legal result of the poll-loop selection can return two
jobs with equal `created_at` with ids in descending order — the claimed
tie-break by ascending id is not requested by the query. -/
theorem c6_tie_break_counterexample :
    isQueryResult 2 [jobA, jobB] [jobB, jobA] ∧
    ¬ List.Pairwise (fun a b : Job => a.createdAt < b.createdAt ∨
        (a.createdAt = b.createdAt ∧ a.id ≤ b.id)) [jobB, jobA] := by
  constructor
  · exact ⟨[jobB, jobA], by decide, by decide, rfl⟩
  · decide

/-- Claim C6 (amended): every poll-loop selection contains at most `limit`
(= `CONCURRENT_JOBS`) jobs, all Pending, ordered by `created_at`
ascending; the relative order of jobs with equal `created_at` is not
constrained by the query. -/
theorem c6_poll_selection (limit : Nat) (table r : List Job)
    (h : isQueryResult limit table r) :
    r.length ≤ limit ∧
    (∀ j ∈ r, j.status = TStatus.pending) ∧
    List.Sorted (fun a b => a.createdAt ≤ b.createdAt) r := by
  obtain ⟨p, hperm, hsort, hr⟩ := h
  subst hr
  exact ⟨List.length_take_le _ _,
    fun j hj => queryResult_all_pending ⟨p, hperm, hsort, rfl⟩ j hj,
    List.Pairwise.sublist (List.take_sublist _ _) hsort⟩

/-- Witness for the amended C6 at a one-row table. -/
theorem c6_poll_selection_witness :
    [jobA].length ≤ 1 ∧
    (∀ j ∈ [jobA], j.status = TStatus.pending) ∧
    List.Sorted (fun a b : Job => a.createdAt ≤ b.createdAt) [jobA] :=
  c6_poll_selection 1 [jobA] [jobA] ⟨[jobA], by decide, by decide, rfl⟩

/-!
## Worker fast path and catalog pointer update
(`JobWorker._process_job`, `JobWorker._update_job_status`)
-/

/-- Python `s.lower()` (per-character lowering suffices for the paths an
`endswith` check inspects). -/
def lowerStr (s : List Char) : List Char := s.map Char.toLower

/-- Python `s.endswith((a, b, ...))`: true when any listed suffix
matches. -/
def endsWithOneOf (s : List Char) (sufs : List (List Char)) : Bool :=
  sufs.any (fun suf => suf.isSuffixOf s)

/-- The direct-play test of `JobWorker._process_job`:
`job.source_path.lower().endswith(('.mp4', '.mov', '.webm'))`. -/
def browserPlayable (sourcePath : List Char) : Bool :=
  endsWithOneOf (lowerStr sourcePath) [chars ".mp4", chars ".mov", chars ".webm"]

/-- External-world interactions of one `_process_job` run. -/
inductive Effect where
  | probe (path : List Char)
  | encode (source : List Char)
  deriving Repr, DecidableEq

/-- The catalog rows a Complete transition may rewrite: `(id, file_path)`
pairs for episodes and media. -/
structure Catalog where
  episodes : List (Nat × List Char)
  media : List (Nat × List Char)
  deriving Repr, DecidableEq

/-- Python truthiness of an optional integer id (`if job.episode_id:`). -/
def truthyId : Option Nat → Bool
  | none => false
  | some n => decide (n ≠ 0)

/-- Overwrite the `file_path` of the row with the given id, when present. -/
def setAssoc (l : List (Nat × List Char)) (key : Nat) (v : List Char) :
    List (Nat × List Char) :=
  l.map (fun pr => if pr.1 = key then (pr.1, v) else pr)

/-- The row mutations of `JobWorker._update_job_status`: each field is set
only when the corresponding argument is not `None`. -/
def applyFields (job : Job) (status : TStatus) (progress : Option Int)
    (outputPath : Option (List Char)) (errorMessage : Option (List Char)) : Job :=
  let job1 := { job with status := status }
  let job2 := match progress with
    | some p => { job1 with progress := p }
    | none => job1
  let job3 := match outputPath with
    | some o => { job2 with outputPath := some o }
    | none => job2
  match errorMessage with
  | some e => { job3 with errorMessage := some e }
  | none => job3

/-- `JobWorker._update_job_status`: set the given fields on the row; on a
Complete transition with a truthy output path, push that path into the
linked episode's (first) or media's (second) `file_path`. -/
def update_job_status (cat : Catalog) (job : Job) (status : TStatus)
    (progress : Option Int) (outputPath : Option (List Char))
    (errorMessage : Option (List Char)) : Catalog × Job :=
  let job4 := applyFields job status progress outputPath errorMessage
  let cat2 :=
    if status = TStatus.complete then
      match outputPath with
      | some o =>
        if o = [] then cat
        else if truthyId job4.episodeId then
          match job4.episodeId with
          | some eid => { cat with episodes := setAssoc cat.episodes eid o }
          | none => cat
        else if truthyId job4.mediaId then
          match job4.mediaId with
          | some mid => { cat with media := setAssoc cat.media mid o }
          | none => cat
        else cat
      | none => cat
    else cat
  (cat2, job4)

/-- Outcomes of the external calls a non-fast-path run makes:
`transcoder.get_video_info` and `transcoder.transcode_to_mp4`. -/
structure WorkerEnv where
  probeResult : Option Unit
  encodeOutcome : Option (List Char)
  deriving Repr, DecidableEq

/-- `JobWorker._process_job` on a job that is (or is not) still Pending:
the direct-play fast path completes immediately with no external calls;
otherwise the job is marked Processing, probed, encoded, and the outcome
is recorded through `_update_job_status` / the retry handler. -/
def process_job (maxRetries : Nat) (cat : Catalog) (job : Job) (env : WorkerEnv) :
    Catalog × Job × List Effect :=
  if job.status ≠ TStatus.pending then (cat, job, [])
  else if browserPlayable job.sourcePath then
    let cj := update_job_status cat job TStatus.complete (some 100)
      (some job.sourcePath) (some (chars "Direct play compatible (force skipped)"))
    (cj.1, cj.2, [])
  else
    let cj1 := update_job_status cat job TStatus.processing (some 0) none none
    match env.probeResult with
    | none =>
      (cj1.1, handleFailure maxRetries cj1.2 (chars "Failed to read video file"),
        [Effect.probe job.sourcePath])
    | some _ =>
      match env.encodeOutcome with
      | some out =>
        let cj2 := update_job_status cj1.1 cj1.2 TStatus.complete (some 100) (some out) none
        (cj2.1, cj2.2, [Effect.probe job.sourcePath, Effect.encode job.sourcePath])
      | none =>
        (cj1.1, handleFailure maxRetries cj1.2 (chars "Transcode returned no output"),
          [Effect.probe job.sourcePath, Effect.encode job.sourcePath])

theorem browserPlayable_ne_nil {p : List Char} (h : browserPlayable p = true) :
    p ≠ [] := by
  intro he
  rw [he] at h
  exact absurd h (by decide)

/-- Claim C4: a Pending job whose source path ends (case-insensitively) in
`.mp4`, `.mov` or `.webm` is completed directly with progress 100 and no
probe call or external encode process. -/
theorem c4_direct_play_fast_path (maxRetries : Nat) (cat : Catalog) (job : Job)
    (env : WorkerEnv) (hpend : job.status = TStatus.pending)
    (hext : browserPlayable job.sourcePath = true) :
    (process_job maxRetries cat job env).2.1.status = TStatus.complete ∧
    (process_job maxRetries cat job env).2.1.progress = 100 ∧
    (process_job maxRetries cat job env).2.2 = [] := by
  rw [process_job, if_neg (by simp [hpend]), if_pos hext]
  exact ⟨rfl, rfl, rfl⟩

/-- A Pending job whose source is already browser-playable (note the
upper-case extension). -/
def sampleDirect : Job := { sampleFresh with sourcePath := chars "Movie.MP4" }

/-- An empty catalog. -/
def emptyCatalog : Catalog := { episodes := [], media := [] }

/-- An environment in which probe and encode would both fail — the fast
path must never consult it. -/
def sampleEnv : WorkerEnv := { probeResult := none, encodeOutcome := none }

/-- Witness for C4 at a concrete `.MP4` job. -/
theorem c4_direct_play_fast_path_witness :
    (process_job 3 emptyCatalog sampleDirect sampleEnv).2.1.status = TStatus.complete ∧
    (process_job 3 emptyCatalog sampleDirect sampleEnv).2.1.progress = 100 ∧
    (process_job 3 emptyCatalog sampleDirect sampleEnv).2.2 = [] :=
  c4_direct_play_fast_path 3 emptyCatalog sampleDirect sampleEnv rfl (by decide)

theorem applyFields_episodeId (job : Job) (status : TStatus) (p : Option Int)
    (o : Option (List Char)) (e : Option (List Char)) :
    (applyFields job status p o e).episodeId = job.episodeId := by
  unfold applyFields
  cases p <;> cases o <;> cases e <;> rfl

theorem applyFields_mediaId (job : Job) (status : TStatus) (p : Option Int)
    (o : Option (List Char)) (e : Option (List Char)) :
    (applyFields job status p o e).mediaId = job.mediaId := by
  unfold applyFields
  cases p <;> cases o <;> cases e <;> rfl

theorem update_complete_sets_episode (cat : Catalog) (job : Job) (o : List Char)
    (ho : o ≠ []) (eid : Nat) (he : job.episodeId = some eid) (hne : eid ≠ 0)
    (p : Option Int) (e : Option (List Char)) :
    (update_job_status cat job TStatus.complete p (some o) e).1 =
      { cat with episodes := setAssoc cat.episodes eid o } := by
  rw [update_job_status]
  dsimp only
  simp [applyFields_episodeId, he, ho, truthyId, hne]

theorem update_complete_sets_media (cat : Catalog) (job : Job) (o : List Char)
    (ho : o ≠ []) (heid : job.episodeId = none) (mid : Nat)
    (hm : job.mediaId = some mid) (hne : mid ≠ 0)
    (p : Option Int) (e : Option (List Char)) :
    (update_job_status cat job TStatus.complete p (some o) e).1 =
      { cat with media := setAssoc cat.media mid o } := by
  rw [update_job_status]
  dsimp only
  simp [applyFields_episodeId, applyFields_mediaId, heid, hm, ho, truthyId, hne]

theorem mem_setAssoc {l : List (Nat × List Char)} {key : Nat} {v fp : List Char}
    (h : (key, fp) ∈ l) : (key, v) ∈ setAssoc l key v := by
  rw [setAssoc]
  have hmem := List.mem_map_of_mem (fun pr => if pr.1 = key then (pr.1, v) else pr) h
  simpa using hmem

/-- Claim C10: a direct-play completion records `output_path =
source_path` and a non-null `error_message`, and — because the Complete
transition carries an output path — the linked episode's (or, failing a
truthy episode id, the media's) `file_path` is overwritten with the
original source path. -/
theorem c10_direct_play_pointer_rewrite (maxRetries : Nat) (cat : Catalog)
    (job : Job) (env : WorkerEnv) (hpend : job.status = TStatus.pending)
    (hext : browserPlayable job.sourcePath = true) :
    (process_job maxRetries cat job env).2.1.outputPath = some job.sourcePath ∧
    (process_job maxRetries cat job env).2.1.errorMessage =
      some (chars "Direct play compatible (force skipped)") ∧
    (∀ eid, job.episodeId = some eid → eid ≠ 0 →
      (process_job maxRetries cat job env).1.episodes =
        setAssoc cat.episodes eid job.sourcePath) ∧
    (∀ eid fp, job.episodeId = some eid → eid ≠ 0 → (eid, fp) ∈ cat.episodes →
      (eid, job.sourcePath) ∈ (process_job maxRetries cat job env).1.episodes) ∧
    (job.episodeId = none → ∀ mid, job.mediaId = some mid → mid ≠ 0 →
      (process_job maxRetries cat job env).1.media =
        setAssoc cat.media mid job.sourcePath) := by
  rw [process_job, if_neg (by simp [hpend]), if_pos hext]
  refine ⟨rfl, rfl, ?_, ?_, ?_⟩
  · intro eid he hne
    rw [update_complete_sets_episode cat job job.sourcePath
      (browserPlayable_ne_nil hext) eid he hne]
  · intro eid fp he hne hmem
    rw [update_complete_sets_episode cat job job.sourcePath
      (browserPlayable_ne_nil hext) eid he hne]
    exact mem_setAssoc hmem
  · intro heid mid hm hne
    rw [update_complete_sets_media cat job job.sourcePath
      (browserPlayable_ne_nil hext) heid mid hm hne]

/-- A direct-play job linked to episode 7. -/
def sampleEpisodeJob : Job :=
  { sampleFresh with sourcePath := chars "clip.mov", episodeId := some 7 }

/-- A catalog holding episode 7 with its original file path. -/
def sampleCatalog : Catalog := { episodes := [(7, chars "old.mkv")], media := [] }

/-- Witness for C10 at the concrete episode-linked `.mov` job. -/
theorem c10_direct_play_pointer_rewrite_witness :
    (process_job 3 sampleCatalog sampleEpisodeJob sampleEnv).2.1.outputPath =
      some (chars "clip.mov") ∧
    (process_job 3 sampleCatalog sampleEpisodeJob sampleEnv).1.episodes =
      setAssoc sampleCatalog.episodes 7 (chars "clip.mov") :=
  ⟨(c10_direct_play_pointer_rewrite 3 sampleCatalog sampleEpisodeJob sampleEnv
      rfl (by decide)).1,
    (c10_direct_play_pointer_rewrite 3 sampleCatalog sampleEpisodeJob sampleEnv
      rfl (by decide)).2.2.1 7 rfl (by decide)⟩

/-!
## Transcoder completion contract (`backend/transcoder.py`)
-/

/-- `Transcoder._run_ffmpeg`: `True` exactly when the subprocess was
spawned and drained without an exception and exited with code 0. -/
def run_ffmpeg (spawnOk : Bool) (exitCode : Int) : Bool :=
  spawnOk && decide (exitCode = 0)

/-- `Transcoder.transcode_to_mp4` after command construction: `None` when
the initial probe failed; otherwise the output path iff `_run_ffmpeg`
succeeded *and* the output file exists on disk afterward. -/
def transcode_to_mp4 (probeResult : Option Unit) (spawnOk : Bool) (exitCode : Int)
    (outputExists : Bool) (output : List Char) : Option (List Char) :=
  match probeResult with
  | none => none
  | some _ =>
    if run_ffmpeg spawnOk exitCode && outputExists then some output else none

/-- Claim C5: past the initial probe, transcoding returns the output path
iff the process exited with code zero (having spawned cleanly) and the
output file exists afterward; a nonzero exit, or a clean exit with a
missing output file, yields `None`. -/
theorem c5_success_iff_clean_exit_and_output (spawnOk : Bool) (exitCode : Int)
    (outputExists : Bool) (output : List Char) :
    (transcode_to_mp4 (some ()) spawnOk exitCode outputExists output = some output ↔
      spawnOk = true ∧ exitCode = 0 ∧ outputExists = true) ∧
    (exitCode ≠ 0 →
      transcode_to_mp4 (some ()) spawnOk exitCode outputExists output = none) ∧
    (outputExists = false →
      transcode_to_mp4 (some ()) spawnOk exitCode outputExists output = none) := by
  cases spawnOk <;> cases outputExists <;> by_cases hz : exitCode = 0 <;>
    simp_all [transcode_to_mp4, run_ffmpeg]

/-- Witness for C5: nonzero exit, and clean exit with missing output, both
fail at concrete inputs. -/
theorem c5_success_iff_clean_exit_and_output_witness :
    transcode_to_mp4 (some ()) true 1 true (chars "out.mp4") = none ∧
    transcode_to_mp4 (some ()) true 0 false (chars "out.mp4") = none :=
  ⟨(c5_success_iff_clean_exit_and_output true 1 true (chars "out.mp4")).2.1 (by decide),
    (c5_success_iff_clean_exit_and_output true 0 false (chars "out.mp4")).2.2 rfl⟩

/-!
## Progress debounce (`update_progress` inside `JobWorker._process_job`)
-/

/-- Python `int(q)`: truncation toward zero. -/
def pyInt (q : ℚ) : Int := if q < 0 then -Int.floor (-q) else Int.floor q

/-- `progress_pct = int(progress * 100)` for a fractional progress value. -/
def progressPct (p : ℚ) : Int := pyInt (p * 100)

/-- One `update_progress(progress)` call against the tracker state
(`tracker.last_update`, initially `-1`): the pair of the new tracker state
and the persisted percentage, if any. -/
def debounceStep (last : Int) (p : ℚ) : Int × Option Int :=
  if last + 5 ≤ progressPct p ∨ progressPct p = 100 then
    (progressPct p, some (progressPct p))
  else (last, none)

/-- The sequence of persisted progress values over a whole callback
sequence. -/
def debounceWrites (last : Int) : List ℚ → List Int
  | [] => []
  | p :: ps =>
    if last + 5 ≤ progressPct p ∨ progressPct p = 100 then
      progressPct p :: debounceWrites (progressPct p) ps
    else debounceWrites last ps

theorem debounceWrites_chain (last : Int) (ps : List ℚ) :
    List.Chain (fun a b => a + 5 ≤ b ∨ b = 100) last (debounceWrites last ps) := by
  induction ps generalizing last with
  | nil => exact List.Chain.nil
  | cons p ps ih =>
    rw [debounceWrites]
    split
    · next h => exact List.Chain.cons h (ih _)
    · exact ih last

/-- Claim C9: over any sequence of fractional progress callbacks, each
persisted value exceeds the previously persisted one by at least 5 or
equals 100 (starting from the initial tracker value `-1`); a callback
meeting neither condition persists nothing and leaves the tracker
unchanged, and one meeting a condition persists exactly its integer
percentage. -/
theorem c9_progress_debounce (ps : List ℚ) :
    List.Chain (fun a b => a + 5 ≤ b ∨ b = 100) (-1) (debounceWrites (-1) ps) ∧
    (∀ last p, progressPct p < last + 5 → progressPct p ≠ 100 →
      debounceStep last p = (last, none)) ∧
    (∀ last p, last + 5 ≤ progressPct p ∨ progressPct p = 100 →
      debounceStep last p = (progressPct p, some (progressPct p))) := by
  refine ⟨debounceWrites_chain (-1) ps, ?_, ?_⟩
  · intro last p h1 h2
    rw [debounceStep, if_neg (by omega)]
  · intro last p h
    rw [debounceStep, if_pos h]

/-- Witness for C9: a callback at 1% against tracker state 0 writes
nothing; a callback at 100% always writes. -/
theorem c9_progress_debounce_witness :
    debounceStep 0 (1 / 100) = (0, none) ∧
    debounceStep 99 1 = (100, some 100) :=
  ⟨(c9_progress_debounce []).2.1 0 (1 / 100) (by norm_num [progressPct, pyInt])
      (by norm_num [progressPct, pyInt]),
    ((c9_progress_debounce []).2.2 99 1 (by norm_num [progressPct, pyInt])).trans
      (by norm_num [progressPct, pyInt])⟩

/-!
## Stale-job reaper (`BackgroundScheduler._cleanup_stale_jobs`)

The session runs with `autoflush=False`, so the deletion query's status
filter is evaluated against the statuses as stored in the database —
marking a stale Processing row Failed in memory does not make it eligible
for the same sweep's deletion pass; the two passes touch disjoint rows.
-/

/-- `BackgroundScheduler._cleanup_stale_jobs` at wall-clock time `now`
(epoch seconds): Processing rows with `created_at` older than
`STALE_JOB_HOURS` become Failed with the stale message; Complete/Failed
rows with `created_at` older than the hardcoded 7 days are deleted. -/
def cleanup_stale_jobs (now staleJobHours : Int) (jobs : List Job) : List Job :=
  let staleCutoff := now - staleJobHours * 3600
  let oldCutoff := now - 7 * 86400
  jobs.filterMap (fun j =>
    if (j.status = TStatus.complete ∨ j.status = TStatus.failed) ∧
        j.createdAt < oldCutoff then
      none
    else if j.status = TStatus.processing ∧ j.createdAt < staleCutoff then
      some { j with
        status := TStatus.failed
        errorMessage := some (chars "Job timed out (stale)") }
    else some j)

/-- Modelled from the spec: the reaper's marking step — a Processing job
whose age (from creation) exceeds the stale threshold becomes Failed with
the distinguishing message; every other job is unchanged. -/
def reaperMark (now staleJobHours : Int) (j : Job) : Job :=
  if j.status = TStatus.processing ∧ j.createdAt < now - staleJobHours * 3600 then
    { j with
      status := TStatus.failed
      errorMessage := some (chars "Job timed out (stale)") }
  else j

/-- Modelled from the spec: the reaper's retention step keeps a job unless
it is terminal (Complete or Failed) and was created more than 7 days
ago. -/
def reaperKeep (now : Int) (j : Job) : Bool :=
  !decide ((j.status = TStatus.complete ∨ j.status = TStatus.failed) ∧
    j.createdAt < now - 7 * 86400)

/-- A job created at time 0 that is currently Processing. -/
def staleByCreation : Job :=
  { sampleFresh with status := TStatus.processing, createdAt := 0 }

/-- Claim C7 as written is refuted here: at `now = 90000` s with the
default 24-hour threshold, the sweep marks `staleByCreation` Failed even
though a consistent history has it entering Processing at `t = 89999`,
i.e. in Processing for only one second — far below the threshold — in
which case the claim requires it to be left unchanged.  The sweep keys on
`created_at`, not on time spent in Processing. -/
theorem c7_stale_by_creation_counterexample :
    cleanup_stale_jobs 90000 24 [staleByCreation] =
      [{ staleByCreation with
          status := TStatus.failed
          errorMessage := some (chars "Job timed out (stale)") }] ∧
    (0 : Int) ≤ 89999 ∧ (89999 : Int) ≤ 90000 ∧
    (90000 : Int) - 89999 < 24 * 3600 := by
  exact ⟨by decide, by decide, by decide, by decide⟩

/-- Claim C7 (amended): the sweep is the composition of the spec-modelled
retention filter (delete terminal jobs created more than 7 days ago — a
window hardcoded in the code, not tunable) and the spec-modelled marking
map (fail Processing jobs whose *creation* is older than the stale
threshold); in particular every other job passes through unchanged. -/
theorem c7_reaper_sweep (now staleJobHours : Int) (jobs : List Job) :
    cleanup_stale_jobs now staleJobHours jobs =
      (jobs.filter (reaperKeep now)).map (reaperMark now staleJobHours) := by
  induction jobs with
  | nil => rfl
  | cons j js ih =>
    rw [cleanup_stale_jobs, List.filterMap_cons]
    by_cases h1 : (j.status = TStatus.complete ∨ j.status = TStatus.failed) ∧
        j.createdAt < now - 7 * 86400
    · rw [if_pos h1]
      have hk : reaperKeep now j = false := by
        rw [reaperKeep, Bool.not_eq_false']
        exact decide_eq_true h1
      rw [List.filter_cons_of_neg (by rw [hk]; simp), ← cleanup_stale_jobs, ih]
    · rw [if_neg h1]
      have hk : reaperKeep now j = true := by
        rw [reaperKeep, Bool.not_eq_true']
        exact decide_eq_false h1
      rw [List.filter_cons_of_pos (by rw [hk]), List.map_cons]
      by_cases h2 : j.status = TStatus.processing ∧
          j.createdAt < now - staleJobHours * 3600
      · rw [if_pos h2, reaperMark, if_pos h2, ← cleanup_stale_jobs, ih]
      · rw [if_neg h2, reaperMark, if_neg h2, ← cleanup_stale_jobs, ih]

end StreamDock
